import Mathlib

set_option autoImplicit false
set_option linter.unusedSectionVars false

/-!
Verification of the ray-marcher core (sphere tracing over a quaternion Julia
distance estimator, Blinn-Phong shading, camera ray generation, scene
deserialization and the image buffer).

The Rust source is generic over a floating-point scalar `T: Float`; the
embedding is generic over a `LinearOrderedField α` (exact arithmetic), so
IEEE-special values do not arise: `is_infinite` is modelled as `False` and
noted where the source tests it.
-/

section Core

variable {α : Type} [LinearOrderedCommRing α]

/-- 3-component vector, modelling `vek::Vec3<T>`. -/
structure V3 (α : Type) where
  x : α
  y : α
  z : α
deriving DecidableEq, Repr

/-- Componentwise addition (`vek` `Add`). -/
def V3.add (v w : V3 α) : V3 α := ⟨v.x + w.x, v.y + w.y, v.z + w.z⟩

/-- Componentwise subtraction (`vek` `Sub`). -/
def V3.sub (v w : V3 α) : V3 α := ⟨v.x - w.x, v.y - w.y, v.z - w.z⟩

/-- Scaling a vector by a scalar (`vek` `Mul<T> for Vec3<T>`). -/
def V3.smul (c : α) (v : V3 α) : V3 α := ⟨c * v.x, c * v.y, c * v.z⟩

instance : Add (V3 α) := ⟨V3.add⟩

instance : Sub (V3 α) := ⟨V3.sub⟩

/-- Dot product (`vek` `Vec3::dot`). -/
def V3.dot (v w : V3 α) : α := v.x * w.x + v.y * w.y + v.z * w.z

/-- Cross product (`vek` `Vec3::cross`). -/
def V3.cross (v w : V3 α) : V3 α :=
  ⟨v.y * w.z - v.z * w.y, v.z * w.x - v.x * w.z, v.x * w.y - v.y * w.x⟩

/-- Squared Euclidean norm, `vek`'s `magnitude_squared`. -/
def V3.normSq (v : V3 α) : α := v.x * v.x + v.y * v.y + v.z * v.z

theorem V3.add_sub_cancel (v w : V3 α) : (v + w) - v = w := by
  cases v; cases w
  show V3.sub (V3.add _ _) _ = _
  simp [V3.add, V3.sub]

theorem V3.normSq_smul (c : α) (v : V3 α) :
    V3.normSq (V3.smul c v) = c ^ 2 * V3.normSq v := by
  cases v; simp [V3.normSq, V3.smul]; ring

/-- The sphere-tracing engine `distance::Geometry<T, E>` (distance.rs:13-26).
The estimator capability `E: Estimator<T>` is a single method
`estimate(&self, pos: Vec3<T>) -> T`, embedded as the function field `de`. -/
structure Geometry (α : Type) where
  max_steps : ℕ
  epsilon : α
  cutoff : α
  sample_size : α
  de : V3 α → α

/-- The marching loop of `Geometry::estimate` (distance.rs:35-45), by fuel on
the remaining iterations of `for _ in 0..self.max_steps`.  Each iteration
computes `measure_pos = pos + rot * total_dist`, queries the estimator and
accumulates, then tests `dist <= epsilon` (hit) and
`total_dist >= cutoff || total_dist.is_infinite()` (miss); in exact arithmetic
`is_infinite()` is always false. -/
def Geometry.estimateLoop (g : Geometry α) (pos rot : V3 α) : ℕ → α → Option (V3 α)
  | 0, _ => none
  | n + 1, total_dist =>
    let measure_pos := pos + V3.smul total_dist rot
    let dist := g.de measure_pos
    let total_dist2 := total_dist + dist
    if dist ≤ g.epsilon then some measure_pos
    else if g.cutoff ≤ total_dist2 then none
    else g.estimateLoop pos rot n total_dist2

/-- `Geometry::estimate` (distance.rs:33-47): march from `total_dist = 0`. -/
def Geometry.estimate (g : Geometry α) (pos rot : V3 α) : Option (V3 α) :=
  g.estimateLoop pos rot g.max_steps 0

/-- Number of estimator queries made by the loop of `Geometry::estimate`:
one per executed iteration (each iteration queries `self.de` exactly once). -/
def Geometry.queryCountLoop (g : Geometry α) (pos rot : V3 α) : ℕ → α → ℕ
  | 0, _ => 0
  | n + 1, total_dist =>
    let measure_pos := pos + V3.smul total_dist rot
    let dist := g.de measure_pos
    let total_dist2 := total_dist + dist
    if dist ≤ g.epsilon then 1
    else if g.cutoff ≤ total_dist2 then 1
    else 1 + g.queryCountLoop pos rot n total_dist2

/-- Estimator queries made by a full `Geometry::estimate` call. -/
def Geometry.queryCount (g : Geometry α) (pos rot : V3 α) : ℕ :=
  g.queryCountLoop pos rot g.max_steps 0

/-- Accumulated `total_dist` at entry of iteration `k`, assuming no early
exit before iteration `k` (the trace of the marching loop). -/
def Geometry.tAt (g : Geometry α) (pos rot : V3 α) : ℕ → α
  | 0 => 0
  | k + 1 => g.tAt pos rot k + g.de (pos + V3.smul (g.tAt pos rot k) rot)

/-- The position measured (queried) at iteration `k` of the trace. -/
def Geometry.probe (g : Geometry α) (pos rot : V3 α) (k : ℕ) : V3 α :=
  pos + V3.smul (g.tAt pos rot k) rot

/-- The estimator value measured at iteration `k` of the trace. -/
def Geometry.dAt (g : Geometry α) (pos rot : V3 α) (k : ℕ) : α :=
  g.de (g.probe pos rot k)

theorem Geometry.queryCountLoop_le (g : Geometry α) (pos rot : V3 α) :
    ∀ (n : ℕ) (t : α), g.queryCountLoop pos rot n t ≤ n := by
  intro n
  induction n with
  | zero => intro t; simp [Geometry.queryCountLoop]
  | succ n ih =>
    intro t
    rw [Geometry.queryCountLoop]
    split
    · omega
    · split
      · omega
      · have := ih (t + g.de (pos + V3.smul t rot))
        omega

/-- One non-exiting iteration advances the loop along the trace. -/
theorem Geometry.estimateLoop_step (g : Geometry α) (pos rot : V3 α) (j n : ℕ)
    (hnohit : g.epsilon < g.dAt pos rot j)
    (hnomiss : g.tAt pos rot (j + 1) < g.cutoff) :
    g.estimateLoop pos rot (n + 1) (g.tAt pos rot j) =
      g.estimateLoop pos rot n (g.tAt pos rot (j + 1)) := by
  simp only [Geometry.dAt, Geometry.probe] at hnohit
  rw [Geometry.tAt] at hnomiss
  rw [Geometry.estimateLoop]
  show (if _ ≤ g.epsilon then _ else _) = _
  rw [if_neg (not_le.mpr hnohit), if_neg (not_le.mpr hnomiss), Geometry.tAt]

/-- Skipping `k` non-exiting iterations along the trace. -/
theorem Geometry.estimateLoop_skip (g : Geometry α) (pos rot : V3 α) :
    ∀ (k n j : ℕ),
      (∀ i, i < k →
        g.epsilon < g.dAt pos rot (j + i) ∧ g.tAt pos rot (j + i + 1) < g.cutoff) →
      g.estimateLoop pos rot (k + n) (g.tAt pos rot j) =
        g.estimateLoop pos rot n (g.tAt pos rot (j + k)) := by
  intro k
  induction k with
  | zero => intro n j _; rw [Nat.zero_add, Nat.add_zero]
  | succ k ih =>
    intro n j h
    have h0 := h 0 (Nat.succ_pos k)
    have step := g.estimateLoop_step pos rot j (k + n)
      (by simpa using h0.1) (by simpa using h0.2)
    have : k + 1 + n = k + n + 1 := by omega
    rw [this, step]
    have ihj := ih n (j + 1) (fun i hi => by
      have := h (i + 1) (by omega)
      constructor
      · have h1 := this.1
        have : j + 1 + i = j + (i + 1) := by omega
        rw [this]; exact h1
      · have h2 := this.2
        have : j + 1 + i + 1 = j + (i + 1) + 1 := by omega
        rw [this]; exact h2)
    rw [ihj]
    have : j + 1 + k = j + (k + 1) := by omega
    rw [this]

/-- Soundness of the marching loop: any hit returned while the invariant
`0 ≤ total_dist < cutoff` holds is a measured point `pos + s • rot` with
`0 ≤ s < cutoff` whose estimator value is at most `epsilon`.  Requires
`0 ≤ epsilon` so that non-hit steps move forward. -/
theorem Geometry.estimateLoop_sound (g : Geometry α) (pos rot : V3 α)
    (hε : 0 ≤ g.epsilon) :
    ∀ (n : ℕ) (t : α), 0 ≤ t → t < g.cutoff →
      ∀ p, g.estimateLoop pos rot n t = some p →
        ∃ s, 0 ≤ s ∧ s < g.cutoff ∧ p = pos + V3.smul s rot ∧ g.de p ≤ g.epsilon := by
  intro n
  induction n with
  | zero => intro t _ _ p h; simp [Geometry.estimateLoop] at h
  | succ n ih =>
    intro t ht0 htc p h
    rw [Geometry.estimateLoop] at h
    by_cases hhit : g.de (pos + V3.smul t rot) ≤ g.epsilon
    · rw [if_pos hhit] at h
      have hp : pos + V3.smul t rot = p := by injection h
      subst hp
      exact ⟨t, ht0, htc, rfl, hhit⟩
    · rw [if_neg hhit] at h
      by_cases hmiss : g.cutoff ≤ t + g.de (pos + V3.smul t rot)
      · rw [if_pos hmiss] at h; exact absurd h (by simp)
      · rw [if_neg hmiss] at h
        have hd : 0 < g.de (pos + V3.smul t rot) :=
          lt_of_le_of_lt hε (not_le.mp hhit)
        exact ih (t + g.de (pos + V3.smul t rot)) (add_nonneg ht0 hd.le)
          (not_le.mp hmiss) p h

end Core

section SphereTracingClaims

variable {α : Type} [LinearOrderedCommRing α]

/-- C1 (amended: additionally assumes `0 ≤ epsilon`).  For every `Geometry`
with `0 ≤ epsilon < cutoff` and every ray with a unit direction,
`Geometry::estimate` queries the estimator at most `max_steps` times, and
returns either `Some p` where `p` is exactly a position at which the
estimator was queried (`p = pos + s • rot`) whose queried value satisfies
`de p ≤ epsilon`, or `None`; every returned point lies strictly less than
`cutoff` distance from the ray origin (stated via squared norms:
`‖p - pos‖² < cutoff²`). -/
theorem C1_estimate_hit_correct (g : Geometry α) (pos rot : V3 α)
    (hε : 0 ≤ g.epsilon) (hεc : g.epsilon < g.cutoff) (hrot : V3.normSq rot = 1) :
    g.queryCount pos rot ≤ g.max_steps ∧
    ∀ p, g.estimate pos rot = some p →
      g.de p ≤ g.epsilon ∧ (∃ s, 0 ≤ s ∧ p = pos + V3.smul s rot) ∧
      V3.normSq (p - pos) < g.cutoff ^ 2 := by
  constructor
  · exact g.queryCountLoop_le pos rot g.max_steps 0
  · intro p hp
    have hc0 : (0 : α) < g.cutoff := lt_of_le_of_lt hε hεc
    obtain ⟨s, hs0, hsc, hps, hde⟩ :=
      g.estimateLoop_sound pos rot hε g.max_steps 0 le_rfl hc0 p hp
    refine ⟨hde, ⟨s, hs0, hps⟩, ?_⟩
    rw [hps, V3.add_sub_cancel, V3.normSq_smul, hrot, mul_one]
    exact pow_lt_pow_left₀ hsc hs0 two_ne_zero

/-- Counterexample geometry for C1 as literally stated: `epsilon < cutoff`
holds (`-200 < 10`) but the estimator takes negative values, so the march
walks backwards past the cutoff before hitting. -/
def gC1x : Geometry ℤ := ⟨5, -200, 10, 0, fun p => if p.x = 0 then -199 else -300⟩

/-- C1 as stated is false: for this geometry with `epsilon < cutoff` and a
unit direction, `estimate` returns a point at squared distance `39601` from
the ray origin, which is not `< cutoff² = 100`. -/
theorem C1_counterexample :
    gC1x.epsilon < gC1x.cutoff ∧ V3.normSq (⟨1, 0, 0⟩ : V3 ℤ) = 1 ∧
    gC1x.estimate ⟨0, 0, 0⟩ ⟨1, 0, 0⟩ = some ⟨-199, 0, 0⟩ ∧
    ¬ V3.normSq ((⟨-199, 0, 0⟩ : V3 ℤ) - ⟨0, 0, 0⟩) < gC1x.cutoff ^ 2 := by
  decide

/-- Witness geometry for C1: constant estimator `1`, `epsilon = 2`,
hits at the first query. -/
def gC1w : Geometry ℤ := ⟨4, 2, 10, 0, fun _ => 1⟩

/-- Witness for C1: the amended theorem applied at a concrete geometry. -/
theorem C1_witness :
    gC1w.queryCount ⟨0, 0, 0⟩ ⟨1, 0, 0⟩ ≤ gC1w.max_steps ∧
    (gC1w.de ⟨0, 0, 0⟩ ≤ gC1w.epsilon ∧
      (∃ s, 0 ≤ s ∧ (⟨0, 0, 0⟩ : V3 ℤ) = ⟨0, 0, 0⟩ + V3.smul s ⟨1, 0, 0⟩) ∧
      V3.normSq ((⟨0, 0, 0⟩ : V3 ℤ) - ⟨0, 0, 0⟩) < gC1w.cutoff ^ 2) := by
  have h := C1_estimate_hit_correct gC1w ⟨0, 0, 0⟩ ⟨1, 0, 0⟩
    (by decide) (by decide) (by decide)
  exact ⟨h.1, h.2 ⟨0, 0, 0⟩ (by decide)⟩

/-- C3: when the marching loop completes all `max_steps` iterations with the
hit test (`d ≤ epsilon`) and the miss test (`total_dist ≥ cutoff`; in exact
arithmetic `total_dist` is always finite) both failing at every iteration,
`Geometry::estimate` returns `None` — a normal miss, not a hit. -/
theorem C3_exhaustion_is_miss (g : Geometry α) (pos rot : V3 α)
    (h : ∀ k, k < g.max_steps →
      g.epsilon < g.dAt pos rot k ∧ g.tAt pos rot (k + 1) < g.cutoff) :
    g.estimate pos rot = none := by
  have hs := g.estimateLoop_skip pos rot g.max_steps 0 0
    (fun i hi => by simpa using h i hi)
  show g.estimateLoop pos rot g.max_steps 0 = none
  have h0 : g.estimateLoop pos rot (g.max_steps + 0) (g.tAt pos rot 0) =
      g.estimateLoop pos rot 0 (g.tAt pos rot (0 + g.max_steps)) := hs
  simpa [Geometry.estimateLoop, Geometry.tAt] using h0

/-- Witness geometry for C3: constant estimator `1`, `epsilon = 0`,
`cutoff = 100`, `max_steps = 3`: no hit and no cutoff-miss ever occurs. -/
def gC3w : Geometry ℤ := ⟨3, 0, 100, 0, fun _ => 1⟩

/-- Witness for C3 at a concrete geometry whose run exhausts the loop. -/
theorem C3_witness : gC3w.estimate ⟨0, 0, 0⟩ ⟨1, 0, 0⟩ = none :=
  C3_exhaustion_is_miss gC3w ⟨0, 0, 0⟩ ⟨1, 0, 0⟩ (by decide)

/-- C9: within one iteration the hit test takes precedence over the miss
test.  If the loop reaches iteration `k` (no earlier exit), the `k`-th
queried distance satisfies `d ≤ epsilon`, and the newly accumulated total
simultaneously satisfies `total_dist ≥ cutoff`, then `estimate` returns
`Some` of the measured point, not `None`. -/
theorem C9_hit_precedes_miss (g : Geometry α) (pos rot : V3 α) (k : ℕ)
    (hk : k < g.max_steps)
    (hreach : ∀ j, j < k →
      g.epsilon < g.dAt pos rot j ∧ g.tAt pos rot (j + 1) < g.cutoff)
    (hhit : g.dAt pos rot k ≤ g.epsilon)
    (_hmiss : g.cutoff ≤ g.tAt pos rot (k + 1)) :
    g.estimate pos rot = some (g.probe pos rot k) := by
  obtain ⟨n, hn⟩ : ∃ n, g.max_steps = k + (n + 1) := ⟨g.max_steps - k - 1, by omega⟩
  have hs := g.estimateLoop_skip pos rot k (n + 1) 0
    (fun i hi => by simpa using hreach i hi)
  show g.estimateLoop pos rot g.max_steps 0 = _
  rw [hn]
  have h0 : g.estimateLoop pos rot (k + (n + 1)) 0 =
      g.estimateLoop pos rot (k + (n + 1)) (g.tAt pos rot 0) := rfl
  rw [h0, hs]
  simp only [Nat.zero_add]
  rw [Geometry.estimateLoop]
  simp only [Geometry.dAt, Geometry.probe] at hhit
  rw [if_pos hhit]
  rfl

/-- Witness geometry for C9: at iteration `1` the queried distance `1` is a
hit while the accumulated total `100 ≥ cutoff` would also be a miss; the hit
wins.  (`hmiss` is part of the statement to express the precedence.) -/
def gC9w : Geometry ℤ := ⟨5, 1, 100, 0, fun p => if p.x = 0 then 99 else 1⟩

/-- Witness for C9: the theorem applied at a concrete geometry with a
simultaneous hit and cutoff-miss at iteration `1`. -/
theorem C9_witness :
    gC9w.estimate ⟨0, 0, 0⟩ ⟨1, 0, 0⟩ = some (gC9w.probe ⟨0, 0, 0⟩ ⟨1, 0, 0⟩ 1) :=
  C9_hit_precedes_miss gC9w ⟨0, 0, 0⟩ ⟨1, 0, 0⟩ 1
    (by decide) (by decide) (by decide) (by decide)

end SphereTracingClaims

section Quaternion

variable {α : Type} [LinearOrderedField α]

/-- Quaternion with `vek`'s component layout `Quaternion { x, y, z, w }`:
`x, y, z` are the imaginary components and `w` is the real (scalar) part. -/
structure Quat (α : Type) where
  x : α
  y : α
  z : α
  w : α
deriving DecidableEq, Repr

/-- Componentwise quaternion addition (`vek` `Add`). -/
def Quat.add (p q : Quat α) : Quat α := ⟨p.x + q.x, p.y + q.y, p.z + q.z, p.w + q.w⟩

/-- Hamilton product as implemented by `vek`'s `Mul for Quaternion`. -/
def Quat.mul (p q : Quat α) : Quat α :=
  ⟨p.w * q.x + p.x * q.w + p.y * q.z - p.z * q.y,
   p.w * q.y - p.x * q.z + p.y * q.w + p.z * q.x,
   p.w * q.z + p.x * q.y - p.y * q.x + p.z * q.w,
   p.w * q.w - p.x * q.x - p.y * q.y - p.z * q.z⟩

/-- `quaternion * scalar` (componentwise scale, `vek` `Mul<T>`). -/
def Quat.scale (q : Quat α) (c : α) : Quat α := ⟨q.x * c, q.y * c, q.z * c, q.w * c⟩

/-- A scalar lifted to a quaternion with zero imaginary part. -/
def Quat.ofScalar (c : α) : Quat α := ⟨0, 0, 0, c⟩

/-- `magnitude_squared`: sum of squares of all four components. -/
def Quat.normSq (q : Quat α) : α := q.x * q.x + q.y * q.y + q.z * q.z + q.w * q.w

/-- `Quaternion::from(Vec4::from(pos))` (distance.rs:86): `vek` extends a
`Vec3` to a `Vec4` with `w = 0`, so the real component is fixed at zero. -/
def Quat.ofV3 (v : V3 α) : Quat α := ⟨v.x, v.y, v.z, 0⟩

/-- `Quaternion::from(Vec4::right())` (distance.rs:88): `Vec4::right()` is
`(1, 0, 0, 0)`, i.e. unit `x` (imaginary) component. -/
def Quat.unitX : Quat α := ⟨1, 0, 0, 0⟩

/-- `Julia<T>` (distance.rs:66-69): fractal constant and iteration count. -/
structure Julia (α : Type) where
  c : Quat α
  iterations : ℕ

/-- The escape-time loop of `Julia::estimate` (distance.rs:93-99), by fuel on
the remaining iterations: each iteration sets `qp = (q * qp) * 2` then
`q = q * q + c`, and breaks once `q.magnitude_squared() > 16` (tested after
the two updates); returns the final `(q, qp)`. -/
def juliaLoop (c : Quat α) : ℕ → Quat α → Quat α → Quat α × Quat α
  | 0, q, qp => (q, qp)
  | n + 1, q, qp =>
    let qp2 := (q.mul qp).scale 2
    let q2 := (q.mul q).add c
    if 16 < q2.normSq then (q2, qp2) else juliaLoop c n q2 qp2

/-- `Julia::estimate` (distance.rs:84-106).  The Rust source is generic over
`T: Float`, whose `sqrt` and `ln` are trait methods; they are taken here as
function parameters (`magnitude()` is `sqrt` of `magnitude_squared()`).
The result is `mag_q * mag_q.ln() / (2 * qp.magnitude())`. -/
def juliaEstimate (sqrt log : α → α) (j : Julia α) (pos : V3 α) : α :=
  let r := juliaLoop j.c j.iterations (Quat.ofV3 pos) Quat.unitX
  let mag_q := sqrt r.1.normSq
  mag_q * log mag_q / (2 * sqrt r.2.normSq)

/-- Modelled from the spec (reference computation for claim C2): `q` starts
at the quaternion `(pos.x, pos.y, pos.z)` with fourth (real) component `0`,
`qp` starts at the unit `(1, 0, 0, 0)`; each of up to `iterations`
repetitions performs `qp := 2 * (q * qp)` (quaternion product with the
scalar `2` lifted to a quaternion) then `q := q*q + c`, breaking early once
`|q|^2 > 16`, tested after the two updates. -/
def juliaLoopSpec (c : Quat α) : ℕ → Quat α → Quat α → Quat α × Quat α
  | 0, q, qp => (q, qp)
  | n + 1, q, qp =>
    let qp2 := (Quat.ofScalar 2).mul (q.mul qp)
    let q2 := (q.mul q).add c
    if 16 < q2.normSq then (q2, qp2) else juliaLoopSpec c n q2 qp2

/-- Modelled from the spec (reference computation for claim C2): after the
loop the distance estimate is `|q| * ln(|q|) / (2 * |qp|)`. -/
def juliaEstimateSpec (sqrt log : α → α) (c : Quat α) (iterations : ℕ)
    (pos : V3 α) : α :=
  let r := juliaLoopSpec c iterations (Quat.ofV3 pos) (⟨1, 0, 0, 0⟩ : Quat α)
  sqrt r.1.normSq * log (sqrt r.1.normSq) / (2 * sqrt r.2.normSq)

theorem Quat.ofScalar_mul (c : α) (q : Quat α) :
    (Quat.ofScalar c).mul q = q.scale c := by
  cases q
  simp only [Quat.ofScalar, Quat.mul, Quat.scale, Quat.mk.injEq]
  constructor
  · ring
  constructor
  · ring
  constructor
  · ring
  · ring

theorem juliaLoopSpec_eq_juliaLoop (c : Quat α) :
    ∀ (n : ℕ) (q qp : Quat α), juliaLoopSpec c n q qp = juliaLoop c n q qp := by
  intro n
  induction n with
  | zero => intro q qp; rfl
  | succ n ih =>
    intro q qp
    rw [juliaLoopSpec, juliaLoop, Quat.ofScalar_mul]
    split
    · rfl
    · exact ih _ _

/-- C2: `Julia::estimate` equals the reference escape-time computation from
the spec: same initialization (`q = (pos, 0)`, `qp = (1,0,0,0)`), same loop
(`qp := 2*(q*qp)`; `q := q*q + c`; early break once `|q|² > 16` tested after
the two updates, for up to `iterations` repetitions) and the same final
formula `|q| * ln(|q|) / (2 * |qp|)`, for every scalar field and every
interpretation of `sqrt` and `ln`. -/
theorem C2_julia_estimate_matches_reference (sqrt log : α → α) (j : Julia α)
    (pos : V3 α) :
    juliaEstimate sqrt log j pos = juliaEstimateSpec sqrt log j.c j.iterations pos := by
  unfold juliaEstimate juliaEstimateSpec
  rw [juliaLoopSpec_eq_juliaLoop]
  rfl

/-- C4: at `pos = (0,0,0)` (with e.g. `c = (0,0,0,2)` and `iterations = 1`)
the derivative quaternion `qp` ends the loop with magnitude zero, so the
denominator `2 * |qp|` of `Julia::estimate`'s formula is exactly `0`: the
code divides by zero (IEEE: the result is NaN/∞) instead of returning a
finite fallback — there is no fallback branch in distance.rs:100-106. -/
theorem C4_zero_derivative_no_fallback :
    (juliaLoop (⟨0, 0, 0, 2⟩ : Quat ℝ) 1 (Quat.ofV3 ⟨0, 0, 0⟩) Quat.unitX).2.normSq = 0 ∧
    2 * Real.sqrt
      (juliaLoop (⟨0, 0, 0, 2⟩ : Quat ℝ) 1 (Quat.ofV3 ⟨0, 0, 0⟩) Quat.unitX).2.normSq = 0 := by
  have h : (juliaLoop (⟨0, 0, 0, 2⟩ : Quat ℝ) 1 (Quat.ofV3 ⟨0, 0, 0⟩) Quat.unitX).2.normSq = 0 := by
    rw [juliaLoop]
    rw [if_neg (by norm_num [Quat.ofV3, Quat.mul, Quat.add, Quat.normSq])]
    norm_num [juliaLoop, Quat.ofV3, Quat.unitX, Quat.mul, Quat.scale, Quat.normSq]
  exact ⟨h, by rw [h, Real.sqrt_zero, mul_zero]⟩

end Quaternion

section Camera

variable {α : Type} [LinearOrderedField α]

/-- `vek::Ray<T>`: position and direction. -/
structure RayT (α : Type) where
  origin : V3 α
  direction : V3 α
deriving DecidableEq, Repr

/-- `vek::Extent2<T>`: a width/height pair. -/
structure Extent2 (α : Type) where
  w : α
  h : α
deriving DecidableEq, Repr

/-- `camera::Viewport<T>` (camera.rs:17-26). -/
structure Viewport (α : Type) where
  cam : RayT α
  right : V3 α
  size : Extent2 α
  focal_len : α

/-- `vek` `normalized()`: `v` scaled by the reciprocal of its magnitude.
`sqrt` is the scalar type's square root (a `Float` trait method in the
source), taken as a parameter. -/
def normalizedWith (sqrt : α → α) (v : V3 α) : V3 α :=
  V3.smul (sqrt (V3.normSq v))⁻¹ v

/-- `Viewport::ray` (camera.rs:54-75): recenter `(u, v)` by `0.5`, walk the
viewport plane along `right` and `right × direction`, pull the pinhole back
by `focal_len` along the view axis, and return
`(cam.origin + ray_on_viewport, normalized(ray_on_viewport - camera))`. -/
def Viewport.ray (sqrt : α → α) (v : Viewport α) (location : α × α) :
    V3 α × V3 α :=
  let width := location.1 - 1 / 2
  let height := location.2 - 1 / 2
  let ray_on_viewport := V3.smul (width * v.size.w) v.right +
    V3.smul (height * v.size.h) (V3.cross v.right v.cam.direction)
  let camera := V3.smul (-v.focal_len) v.cam.direction
  let ray_rot := normalizedWith sqrt (ray_on_viewport - camera)
  (v.cam.origin + ray_on_viewport, ray_rot)

theorem V3.zero_smul (v : V3 α) : V3.smul 0 v = ⟨0, 0, 0⟩ := by
  cases v; simp [V3.smul]

theorem V3.add_zero (v : V3 α) : v + (⟨0, 0, 0⟩ : V3 α) = v := by
  cases v
  show V3.add _ _ = _
  simp [V3.add]

theorem V3.zero_sub_smul_neg (c : α) (v : V3 α) :
    (⟨0, 0, 0⟩ : V3 α) - V3.smul (-c) v = V3.smul c v := by
  cases v
  show V3.sub _ _ = _
  simp [V3.sub, V3.smul]

theorem V3.smul_smul (c d : α) (v : V3 α) :
    V3.smul c (V3.smul d v) = V3.smul (c * d) v := by
  cases v; simp [V3.smul, mul_assoc]

theorem V3.one_smul (v : V3 α) : V3.smul 1 v = v := by
  cases v; simp [V3.smul]

/-- C6: for every `Viewport` whose camera direction is a unit vector and
whose focal length is positive, `Viewport::ray((0.5, 0.5))` returns origin
`cam.origin` and direction `cam.direction` (the center pixel looks straight
ahead). -/
theorem C6_center_ray_is_forward (v : Viewport ℝ)
    (hdir : V3.normSq v.cam.direction = 1) (hf : 0 < v.focal_len) :
    v.ray Real.sqrt (1 / 2, 1 / 2) = (v.cam.origin, v.cam.direction) := by
  unfold Viewport.ray
  have hhalf : (1 / 2 : ℝ) - 1 / 2 = 0 := by norm_num
  simp only [hhalf, zero_mul, V3.zero_smul]
  have hadd : (⟨0, 0, 0⟩ : V3 ℝ) + (⟨0, 0, 0⟩ : V3 ℝ) = ⟨0, 0, 0⟩ := V3.add_zero _
  rw [hadd, V3.add_zero, V3.zero_sub_smul_neg]
  have hns : V3.normSq (V3.smul v.focal_len v.cam.direction) = v.focal_len ^ 2 := by
    rw [V3.normSq_smul, hdir, mul_one]
  unfold normalizedWith
  rw [hns, Real.sqrt_sq hf.le, V3.smul_smul, inv_mul_cancel₀ hf.ne', V3.one_smul]

/-- Concrete viewport for the C6 witness. -/
def vC6w : Viewport ℝ := ⟨⟨⟨1, 2, 3⟩, ⟨0, 0, 1⟩⟩, ⟨1, 0, 0⟩, ⟨3, 2⟩, 2⟩

/-- Witness for C6 at a concrete viewport. -/
theorem C6_witness :
    vC6w.ray Real.sqrt (1 / 2, 1 / 2) = (vC6w.cam.origin, vC6w.cam.direction) :=
  C6_center_ray_is_forward vC6w (by norm_num [vC6w, V3.normSq]) (by norm_num [vC6w])

end Camera

section Lighting

variable {α : Type} [LinearOrderedField α]

/-- `light::Material<T>` (light.rs:21-29): specular, diffuse, ambient and
shininess channels (`shininess` defaults when omitted at the serde layer). -/
structure Material (α : Type) where
  specular : α
  diffuse : α
  ambient : α
  shininess : α
deriving DecidableEq, Repr

/-- `light::Light<T, C>` (light.rs:33-47): `rot` is the direction toward the
light (`L`), `col` the `Material`-shaped per-channel intensity. -/
structure Light (α : Type) where
  rot : V3 α
  col : Material α
deriving DecidableEq, Repr

/-- `BlinnPhong::lighting` (light.rs:75-88).  The color type `C` is generic
in the source (`Default + Blend (plus) + ComponentWise + Mul<T>`); it is
instantiated at a single scalar channel, with `Alpha::default() = 0`,
`plus` = addition and scaling = multiplication, which is a legitimate
instance of the source's capability bounds.  `powf` is the scalar's `Float`
power (taken as a parameter) and `sqrt` feeds `normalized()` for the
halfway vector.  Per light the accumulated color gains
`ambient*k_a + diffuse*k_d*(L·N) + specular*k_s*(N·H)^α` — the dot products
are used as-is, with no clamping in the source. -/
def lighting (sqrt : α → α) (powf : α → α → α) (camDir : V3 α)
    (lights : List (Light α)) (normal : V3 α) (mat : Material α) : α :=
  lights.foldl (fun color light =>
    let halfway := normalizedWith sqrt (camDir + light.rot)
    color + light.col.ambient * mat.ambient
      + light.col.diffuse * mat.diffuse * V3.dot light.rot normal
      + light.col.specular * mat.specular * powf (V3.dot normal halfway) mat.shininess) 0

/-- Light used by the C5 counterexample: direction `(0,0,1)`, zero specular
intensity, unit diffuse and ambient intensity. -/
def lightC5 : Light ℝ := ⟨⟨0, 0, 1⟩, ⟨0, 1, 1, 0⟩⟩

/-- Material used by the C5 counterexample: diffuse-only. -/
def matC5 : Material ℝ := ⟨0, 1, 0, 0⟩

/-- C5 as stated is false: with the surface normal `(0,0,-1)` facing away
from the light (`L·N = -1 < 0`), the diffuse term contributes `-1` — it
subtracts light (the accumulated color is `-1`), whereas with the diffuse
coefficient zeroed the color is `0`.  Nothing in light.rs:75-88 clamps the
dot products. -/
theorem C5_counterexample :
    V3.dot lightC5.rot ⟨0, 0, -1⟩ < 0 ∧
    lighting Real.sqrt Real.rpow ⟨0, 0, 1⟩ [lightC5] ⟨0, 0, -1⟩ matC5 = -1 ∧
    lighting Real.sqrt Real.rpow ⟨0, 0, 1⟩ [lightC5] ⟨0, 0, -1⟩
      ⟨matC5.specular, 0, matC5.ambient, matC5.shininess⟩ = 0 := by
  refine ⟨by norm_num [lightC5, V3.dot], ?_, ?_⟩ <;>
    simp [lighting, lightC5, matC5, V3.dot]

/-- C5 (amended): the dot products in `BlinnPhong::lighting` are not
clamped at zero: for every light, normal and material with
`dot(light.direction, normal) < 0` and positive diffuse intensity and
coefficient, the negative diffuse term strictly subtracts from the
accumulated color (compared with the same material with zero diffuse),
for any interpretation of `sqrt` and `powf`. -/
theorem C5_negative_dot_subtracts (sqrt : α → α) (powf : α → α → α)
    (camDir : V3 α) (light : Light α) (normal : V3 α) (mat : Material α)
    (hdot : V3.dot light.rot normal < 0)
    (hld : 0 < light.col.diffuse) (hmd : 0 < mat.diffuse) :
    lighting sqrt powf camDir [light] normal mat <
      lighting sqrt powf camDir [light] normal
        ⟨mat.specular, 0, mat.ambient, mat.shininess⟩ := by
  simp only [lighting, List.foldl]
  have hD : light.col.diffuse * mat.diffuse * V3.dot light.rot normal < 0 :=
    mul_neg_of_pos_of_neg (mul_pos hld hmd) hdot
  have h0 : light.col.diffuse * (0 : α) * V3.dot light.rot normal = 0 := by ring
  linarith [hD, h0]

/-- Witness for the amended C5 at the concrete counterexample data. -/
theorem C5_witness :
    lighting Real.sqrt Real.rpow ⟨0, 0, 1⟩ [lightC5] ⟨0, 0, -1⟩ matC5 <
      lighting Real.sqrt Real.rpow ⟨0, 0, 1⟩ [lightC5] ⟨0, 0, -1⟩
        ⟨matC5.specular, 0, matC5.ambient, matC5.shininess⟩ :=
  C5_negative_dot_subtracts Real.sqrt Real.rpow ⟨0, 0, 1⟩ lightC5 ⟨0, 0, -1⟩ matC5
    (by norm_num [lightC5, V3.dot]) (by norm_num [lightC5]) (by norm_num [matC5])

end Lighting

section Serialize

variable {α γ : Type} [LinearOrderedField α]

/-- `serialize::SceneDeserializeErr` (serialize.rs:19-24). -/
inductive SceneDeserializeErr where
  | UnknownMaterial (s : String)
  | UnknownCamera (s : String)
  | ColorParseErr (s : String)
deriving DecidableEq, Repr

/-- Rust's `Iterator::collect()` into `Result<Vec<_>, E>`: convert each
element in order, short-circuiting at the first error. -/
def collectExcept (f : γ → Except SceneDeserializeErr α) :
    List γ → Except SceneDeserializeErr (List α)
  | [] => .ok []
  | x :: xs =>
    match f x with
    | .error e => .error e
    | .ok y =>
      match collectExcept f xs with
      | .error e => .error e
      | .ok ys => .ok (y :: ys)

/-- `str_to_color_result` (serialize.rs:67-75): wraps the external color
parser `str_to_color` (serialize.rs:41-55, backed by the external
`color_processing` crate, taken here as the parameter `parse`), turning a
failed parse of `col` into `ColorParseErr col`. -/
def strToColorResult (parse : String → Option γ) (col : String) :
    Except SceneDeserializeErr γ :=
  match parse col with
  | some c => .ok c
  | none => .error (.ColorParseErr col)

/-- `TryFrom<&Material<String>> for Material<color>` (serialize.rs:77-102):
parse the channels in declaration order (specular, diffuse, ambient,
shininess); an omitted — empty-string — `shininess` becomes the default
color `dflt` instead of a parse error. -/
def materialTryFrom (parse : String → Option γ) (dflt : γ)
    (mat : Material String) : Except SceneDeserializeErr (Material γ) :=
  match strToColorResult parse mat.specular with
  | .error e => .error e
  | .ok specular =>
    match strToColorResult parse mat.diffuse with
    | .error e => .error e
    | .ok diffuse =>
      match strToColorResult parse mat.ambient with
      | .error e => .error e
      | .ok ambient =>
        match (if mat.shininess = "" then .ok dflt
               else strToColorResult parse mat.shininess) with
        | .error e => .error e
        | .ok shininess => .ok ⟨specular, diffuse, ambient, shininess⟩

/-- `serialize::Light<T>` (serialize.rs:104-114): a direction and color
strings in `Material` shape. -/
structure SLight (α : Type) where
  rot : V3 α
  col : Material String

/-- `light::Light<T, C>` as produced by deserialization, with the color
type `C` kept generic (`Alpha<Rgb<S, T>, A>` in the source). -/
structure LLight (α γ : Type) where
  rot : V3 α
  col : Material γ

/-- `TryFrom<Light<T>> for light::Light<T, C>` (serialize.rs:116-130). -/
def lightTryFrom (parse : String → Option γ) (dflt : γ) (l : SLight α) :
    Except SceneDeserializeErr (LLight α γ) :=
  match materialTryFrom parse dflt l.col with
  | .error e => .error e
  | .ok col => .ok ⟨l.rot, col⟩

/-- `serialize::Render` (serialize.rs:132-136): a camera reference and a
pixel width. -/
structure SRender where
  camera : String
  width : ℕ
deriving DecidableEq, Repr

/-- `camera::Render` (camera.rs:28-31), with the looked-up viewport held by
value (`into_render` clones it). -/
structure CRender (α : Type) where
  width : ℕ
  view : Viewport α

/-- `Render::into_render` (serialize.rs:138-154): look up the referenced
camera in the viewport map, failing with `UnknownCamera` when absent. -/
def intoRender (cameras : List (String × Viewport α)) (r : SRender) :
    Except SceneDeserializeErr (CRender α) :=
  match cameras.lookup r.camera with
  | some v => .ok ⟨r.width, v⟩
  | none => .error (.UnknownCamera r.camera)

/-- `serialize::Camera<T>` (serialize.rs:156-164). -/
structure SCamera (α : Type) where
  facing : V3 α
  right : V3 α
  pos : V3 α
  focal_len : α
  width : α
  height : α

/-- `From<&Camera<T>> for Viewport<T>` (serialize.rs:166-178): the facing
vector is normalized (`sqrt` parameterizes the scalar square root). -/
def viewportOfCamera (sqrt : α → α) (cam : SCamera α) : Viewport α :=
  ⟨⟨cam.pos, normalizedWith sqrt cam.facing⟩, cam.right,
    ⟨cam.width, cam.height⟩, cam.focal_len⟩

/-- `serialize::EstimatorBase<T>` (serialize.rs:180-186). -/
structure EstimatorBase (α : Type) where
  material : String
  epsilon : α
  cutoff : α
  max_steps : ℕ

/-- `serialize::Julia<T>` (serialize.rs:188-195). -/
structure SJulia (α : Type) where
  c : Quat α
  iterations : ℕ
  est : EstimatorBase α

/-- `serialize::Geometry<T>` (serialize.rs:197-202): a tagged union with
the single `julia` variant. -/
inductive SGeometry (α : Type) where
  | julia (j : SJulia α)

/-- The material name referenced by a scene-file geometry. -/
def geomMaterialName : SGeometry α → String
  | .julia j => j.est.material

/-- `From<&Julia<T>> for distance::Geometry<T>` (serialize.rs:204-217):
`max_steps`, `epsilon`, `cutoff` from the descriptor, `sample_size` set to
`epsilon`, and the estimator built from the constant and iteration count
(`sqrt`/`log` parameterize the scalar `Float` methods). -/
def distGeomOfJulia (sqrt log : α → α) (j : SJulia α) : Geometry α :=
  { max_steps := j.est.max_steps
    epsilon := j.est.epsilon
    cutoff := j.est.cutoff
    sample_size := j.est.epsilon
    de := juliaEstimate sqrt log ⟨j.c, j.iterations⟩ }

/-- `render::RenderGeometry` as constructed at serialize.rs:230-239.  Its
declaring module is not among the sources (src/render.rs is a stale
fragment); the fields come from the construction site, and the material's
`.into()` conversion is modelled as the identity. -/
structure RenderGeometry (α : Type) where
  mat : Material α
  geom : Geometry α

/-- `render::Scene` as constructed at serialize.rs:272-284 (declaring module
not among the sources; fields from the construction site). -/
structure RenderScene (α γ : Type) where
  geometry : List (RenderGeometry α)
  lights : List (LLight α γ)
  renders : List (CRender α)

/-- The per-geometry step of `into_render_geoms` (serialize.rs:226-239):
convert the descriptor and look up its material, failing with
`UnknownMaterial` when the name is absent. -/
def geomItemConv (sqrt log : α → α) (materials : List (String × Material α)) :
    SGeometry α → Except SceneDeserializeErr (RenderGeometry α)
  | .julia j =>
    match materials.lookup j.est.material with
    | some m => .ok ⟨m, distGeomOfJulia sqrt log j⟩
    | none => .error (.UnknownMaterial j.est.material)

/-- `into_render_geoms` (serialize.rs:219-241): pair each geometry with its
looked-up material; `collect` stops at the first error. -/
def intoRenderGeoms (sqrt log : α → α) (geom : List (SGeometry α))
    (materials : List (String × Material α)) :
    Except SceneDeserializeErr (List (RenderGeometry α)) :=
  collectExcept (geomItemConv sqrt log materials) geom

/-- `serialize::Scene<T>` (serialize.rs:243-253); the `HashMap`s are
modelled as association lists. -/
structure SScene (α : Type) where
  geometry : List (SGeometry α)
  materials : List (String × Material α)
  lights : List (SLight α)
  cameras : List (String × SCamera α)
  renders : List SRender

/-- The viewport map built from the named cameras (serialize.rs:266-270). -/
def viewportsOf (sqrt : α → α) (scene : SScene α) : List (String × Viewport α) :=
  scene.cameras.map (fun p => (p.1, viewportOfCamera sqrt p.2))

/-- `TryFrom<&Scene<T>> for render::Scene` (serialize.rs:255-286): build
the viewport map, then geometry, lights and renders in struct-literal
order, stopping at the first error. -/
def sceneTryFrom (sqrt log : α → α) (parse : String → Option γ) (dflt : γ)
    (scene : SScene α) : Except SceneDeserializeErr (RenderScene α γ) :=
  match intoRenderGeoms sqrt log scene.geometry scene.materials with
  | .error e => .error e
  | .ok geometry =>
    match collectExcept (lightTryFrom parse dflt) scene.lights with
    | .error e => .error e
    | .ok lights =>
      match collectExcept (intoRender (viewportsOf sqrt scene)) scene.renders with
      | .error e => .error e
      | .ok renders => .ok ⟨geometry, lights, renders⟩

end Serialize

section SerializeLemmas

variable {α γ : Type} [LinearOrderedField α]

/-- All color strings of a `Material<String>` parse; `shininess` may
instead be the empty string (the serde default, serialize.rs:91-99). -/
def materialColsOk (parse : String → Option γ) (m : Material String) : Prop :=
  (parse m.specular).isSome = true ∧ (parse m.diffuse).isSome = true ∧
  (parse m.ambient).isSome = true ∧
  (m.shininess = "" ∨ (parse m.shininess).isSome = true)

/-- `s` is one of the color strings of `m` handed to `str_to_color_result`
(`shininess` only when non-empty). -/
def materialColStr (m : Material String) (s : String) : Prop :=
  s = m.specular ∨ s = m.diffuse ∨ s = m.ambient ∨
  (s = m.shininess ∧ m.shininess ≠ "")

/-- The reference/parse conditions of a scene: every geometry's material
name resolves, every light's colors parse, every render's camera resolves. -/
def sceneRefsOk (parse : String → Option γ) (scene : SScene α) : Prop :=
  (∀ g ∈ scene.geometry,
    (scene.materials.lookup (geomMaterialName g)).isSome = true) ∧
  (∀ l ∈ scene.lights, materialColsOk parse l.col) ∧
  (∀ r ∈ scene.renders, (scene.cameras.lookup r.camera).isSome = true)

theorem collectExcept_isOk {β : Type} (f : γ → Except SceneDeserializeErr β) :
    ∀ l : List γ, (collectExcept f l).isOk = true ↔ ∀ x ∈ l, (f x).isOk = true := by
  intro l
  induction l with
  | nil => simp [collectExcept, Except.isOk, Except.toBool]
  | cons x xs ih =>
    rw [collectExcept]
    cases hfx : f x with
    | error e =>
      simp only []
      constructor
      · intro h; exact absurd h (by simp [Except.isOk, Except.toBool])
      · intro h
        have hx := h x (List.mem_cons_self x xs)
        rw [hfx] at hx
        exact absurd hx (by simp [Except.isOk, Except.toBool])
    | ok y =>
      cases hxs : collectExcept f xs with
      | error e =>
        simp only []
        constructor
        · intro h; exact absurd h (by simp [Except.isOk, Except.toBool])
        · intro h
          have hok : (collectExcept f xs).isOk = true :=
            ih.mpr (fun z hz => h z (List.mem_cons_of_mem x hz))
          rw [hxs] at hok
          exact absurd hok (by simp [Except.isOk, Except.toBool])
      | ok ys =>
        simp only []
        constructor
        · intro _ z hz
          rcases List.mem_cons.mp hz with rfl | hz'
          · rw [hfx]; rfl
          · have hok : (collectExcept f xs).isOk = true := by rw [hxs]; rfl
            exact ih.mp hok z hz'
        · intro _; rfl

theorem collectExcept_error {β : Type} (f : γ → Except SceneDeserializeErr β)
    (e : SceneDeserializeErr) :
    ∀ l : List γ, collectExcept f l = .error e → ∃ x ∈ l, f x = .error e := by
  intro l
  induction l with
  | nil => intro h; exact absurd h (by simp [collectExcept])
  | cons x xs ih =>
    intro h
    rw [collectExcept] at h
    cases hfx : f x with
    | error e2 =>
      rw [hfx] at h
      have : e2 = e := by injection h
      exact ⟨x, List.mem_cons_self x xs, by rw [hfx, this]⟩
    | ok y =>
      rw [hfx] at h
      cases hxs : collectExcept f xs with
      | error e2 =>
        rw [hxs] at h
        have : e2 = e := by injection h
        obtain ⟨z, hz, hfz⟩ := ih (by rw [hxs, this])
        exact ⟨z, List.mem_cons_of_mem x hz, hfz⟩
      | ok ys => rw [hxs] at h; exact absurd h (by simp)

theorem collectExcept_ok_mem {β : Type} (f : γ → Except SceneDeserializeErr β) :
    ∀ (l : List γ) (ys : List β), collectExcept f l = .ok ys →
      ∀ y ∈ ys, ∃ x ∈ l, f x = .ok y := by
  intro l
  induction l with
  | nil =>
    intro ys h y hy
    rw [collectExcept] at h
    have : ([] : List β) = ys := by injection h
    subst this
    exact absurd hy (by simp)
  | cons x xs ih =>
    intro ys h y hy
    rw [collectExcept] at h
    cases hfx : f x with
    | error e => rw [hfx] at h; exact absurd h (by simp)
    | ok y0 =>
      rw [hfx] at h
      cases hxs : collectExcept f xs with
      | error e => rw [hxs] at h; exact absurd h (by simp)
      | ok ys0 =>
        rw [hxs] at h
        have : y0 :: ys0 = ys := by injection h
        subst this
        rcases List.mem_cons.mp hy with rfl | hy'
        · exact ⟨x, List.mem_cons_self x xs, hfx⟩
        · obtain ⟨z, hz, hfz⟩ := ih ys0 hxs y hy'
          exact ⟨z, List.mem_cons_of_mem x hz, hfz⟩

end SerializeLemmas

section SerializeLemmas2

variable {α γ : Type} [LinearOrderedField α]

theorem materialTryFrom_isOk (parse : String → Option γ) (dflt : γ)
    (m : Material String) :
    (materialTryFrom parse dflt m).isOk = true ↔ materialColsOk parse m := by
  unfold materialTryFrom strToColorResult materialColsOk
  cases hp1 : parse m.specular <;> cases hp2 : parse m.diffuse <;>
    cases hp3 : parse m.ambient <;>
      simp only [hp1, hp2, hp3, Option.isSome]
  case none.none.none | none.none.some | none.some.none | none.some.some
    | some.none.none | some.none.some | some.some.none =>
    simp [Except.isOk, Except.toBool]
  case some.some.some =>
    by_cases hsh : m.shininess = ""
    · simp [hsh, Except.isOk, Except.toBool]
    · cases hp4 : parse m.shininess <;>
        simp [hsh, hp4, Except.isOk, Except.toBool, Option.isSome]

theorem materialTryFrom_error (parse : String → Option γ) (dflt : γ)
    (m : Material String) (e : SceneDeserializeErr)
    (h : materialTryFrom parse dflt m = .error e) :
    ∃ s, e = .ColorParseErr s ∧ materialColStr m s ∧ parse s = none := by
  unfold materialTryFrom strToColorResult at h
  cases hp1 : parse m.specular <;> rw [hp1] at h
  · refine ⟨m.specular, ?_, Or.inl rfl, hp1⟩
    injection h with h2; exact h2.symm
  cases hp2 : parse m.diffuse <;> rw [hp2] at h
  · refine ⟨m.diffuse, ?_, Or.inr (Or.inl rfl), hp2⟩
    injection h with h2; exact h2.symm
  cases hp3 : parse m.ambient <;> rw [hp3] at h
  · refine ⟨m.ambient, ?_, Or.inr (Or.inr (Or.inl rfl)), hp3⟩
    injection h with h2; exact h2.symm
  by_cases hsh : m.shininess = ""
  · rw [if_pos hsh] at h
    exact absurd h (by simp)
  · rw [if_neg hsh] at h
    cases hp4 : parse m.shininess <;> rw [hp4] at h
    · refine ⟨m.shininess, ?_, Or.inr (Or.inr (Or.inr ⟨rfl, hsh⟩)), hp4⟩
      injection h with h2; exact h2.symm
    · exact absurd h (by simp)

theorem lightTryFrom_isOk (parse : String → Option γ) (dflt : γ) (l : SLight α) :
    (lightTryFrom parse dflt l).isOk = true ↔ materialColsOk parse l.col := by
  rw [← materialTryFrom_isOk parse dflt l.col]
  unfold lightTryFrom
  cases h : materialTryFrom parse dflt l.col <;> simp [Except.isOk, Except.toBool]

theorem lightTryFrom_error (parse : String → Option γ) (dflt : γ) (l : SLight α)
    (e : SceneDeserializeErr) (h : lightTryFrom parse dflt l = .error e) :
    ∃ s, e = .ColorParseErr s ∧ materialColStr l.col s ∧ parse s = none := by
  unfold lightTryFrom at h
  cases hm : materialTryFrom parse dflt l.col with
  | error e2 =>
    simp only [hm] at h
    have h2 : e2 = e := by injection h
    exact h2 ▸ materialTryFrom_error parse dflt l.col e2 hm
  | ok col => simp only [hm] at h; exact Except.noConfusion h

theorem intoRender_isOk (cameras : List (String × Viewport α)) (r : SRender) :
    (intoRender cameras r).isOk = true ↔ (cameras.lookup r.camera).isSome = true := by
  unfold intoRender
  cases h : cameras.lookup r.camera <;>
    simp [h, Except.isOk, Except.toBool, Option.isSome]

theorem intoRender_error (cameras : List (String × Viewport α)) (r : SRender)
    (e : SceneDeserializeErr) (h : intoRender cameras r = .error e) :
    e = .UnknownCamera r.camera ∧ cameras.lookup r.camera = none := by
  unfold intoRender at h
  cases hl : cameras.lookup r.camera with
  | none =>
    simp only [hl] at h
    have h2 : SceneDeserializeErr.UnknownCamera r.camera = e := by injection h
    exact ⟨h2.symm, rfl⟩
  | some v => simp only [hl] at h; exact Except.noConfusion h

theorem lookup_map_viewports (sqrt : α → α) (cams : List (String × SCamera α))
    (k : String) :
    ((cams.map (fun p => (p.1, viewportOfCamera sqrt p.2))).lookup k) =
      (cams.lookup k).map (viewportOfCamera sqrt) := by
  induction cams with
  | nil => rfl
  | cons p ps ih =>
    cases hk : k == p.1 <;> simp [List.lookup, hk, ih]

theorem geomItemConv_isOk (sqrt log : α → α)
    (materials : List (String × Material α)) (g : SGeometry α) :
    ((geomItemConv sqrt log materials g).isOk = true) ↔
      (materials.lookup (geomMaterialName g)).isSome = true := by
  cases g with
  | julia j =>
    unfold geomItemConv geomMaterialName
    cases h : materials.lookup j.est.material <;>
      simp [h, Except.isOk, Except.toBool, Option.isSome]

theorem geomItemConv_error (sqrt log : α → α)
    (materials : List (String × Material α)) (g : SGeometry α)
    (e : SceneDeserializeErr) (h : geomItemConv sqrt log materials g = .error e) :
    e = .UnknownMaterial (geomMaterialName g) ∧
      materials.lookup (geomMaterialName g) = none := by
  cases g with
  | julia j =>
    unfold geomItemConv at h
    unfold geomMaterialName
    cases hl : materials.lookup j.est.material with
    | none =>
      simp only [hl] at h
      have h2 : SceneDeserializeErr.UnknownMaterial j.est.material = e := by injection h
      exact ⟨h2.symm, rfl⟩
    | some m => simp only [hl] at h; exact Except.noConfusion h

end SerializeLemmas2

section SceneConversionClaim

variable {α γ : Type} [LinearOrderedField α]

theorem materialColsOk_parse (parse : String → Option γ) (m : Material String)
    (s : String) (hok : materialColsOk parse m) (hstr : materialColStr m s) :
    (parse s).isSome = true := by
  obtain ⟨h1, h2, h3, h4⟩ := hok
  rcases hstr with rfl | rfl | rfl | ⟨rfl, hne⟩
  · exact h1
  · exact h2
  · exact h3
  · exact h4.resolve_left hne

theorem viewportsOf_lookup_isSome (sqrt : α → α) (scene : SScene α)
    (k : String) :
    ((viewportsOf sqrt scene).lookup k).isSome = (scene.cameras.lookup k).isSome := by
  unfold viewportsOf
  rw [lookup_map_viewports]
  cases scene.cameras.lookup k <;> rfl

theorem viewportsOf_lookup_none (sqrt : α → α) (scene : SScene α) (k : String)
    (h : (viewportsOf sqrt scene).lookup k = none) :
    scene.cameras.lookup k = none := by
  have := viewportsOf_lookup_isSome sqrt scene k
  rw [h] at this
  cases hc : scene.cameras.lookup k
  · rfl
  · rw [hc] at this; exact absurd this.symm (by simp [Option.isSome])

/-- C7: converting a parsed `serialize::Scene` into a `render::Scene`
succeeds exactly when every geometry's material name resolves, every
light's color strings parse (an empty `shininess` defaulting instead) and
every render's camera name resolves; and each structured error names an
actual failure: `UnknownCamera n` only when some render references the
camera `n` absent from the camera map, `UnknownMaterial m` only when some
geometry references the material `m` absent from the material map, and
`ColorParseErr s` only when some light carries the color string `s` and it
fails to parse.  (Scene materials carry numeric channels, not color
strings, so lights are the only `ColorParseErr` source.) -/
theorem C7_scene_conversion_errors (sqrt log : α → α)
    (parse : String → Option γ) (dflt : γ) (scene : SScene α) :
    ((sceneTryFrom sqrt log parse dflt scene).isOk = true ↔ sceneRefsOk parse scene) ∧
    (∀ n, sceneTryFrom sqrt log parse dflt scene = .error (.UnknownCamera n) →
      (∃ r ∈ scene.renders, r.camera = n) ∧ scene.cameras.lookup n = none) ∧
    (∀ m, sceneTryFrom sqrt log parse dflt scene = .error (.UnknownMaterial m) →
      (∃ g ∈ scene.geometry, geomMaterialName g = m) ∧
        scene.materials.lookup m = none) ∧
    (∀ s, sceneTryFrom sqrt log parse dflt scene = .error (.ColorParseErr s) →
      (∃ l ∈ scene.lights, materialColStr l.col s) ∧ parse s = none) := by
  unfold sceneTryFrom intoRenderGeoms
  cases hg : collectExcept (geomItemConv sqrt log scene.materials) scene.geometry with
  | error e =>
    obtain ⟨g, hgmem, hge⟩ := collectExcept_error _ e _ hg
    obtain ⟨he2, hnone⟩ := geomItemConv_error sqrt log scene.materials g e hge
    subst he2
    refine ⟨⟨fun hfalse => absurd hfalse (by simp [Except.isOk, Except.toBool]),
      fun hok => ?_⟩, fun n hn => ?_, fun m hm => ?_, fun s hs => ?_⟩
    · exfalso
      obtain ⟨h1, _, _⟩ := hok
      have := h1 g hgmem
      rw [hnone] at this
      exact absurd this (by simp [Option.isSome])
    · exfalso; injection hn with h2; exact SceneDeserializeErr.noConfusion h2
    · injection hm with h2
      injection h2 with h3
      exact ⟨⟨g, hgmem, h3⟩, h3 ▸ hnone⟩
    · exfalso; injection hs with h2; exact SceneDeserializeErr.noConfusion h2
  | ok geoms =>
    cases hl : collectExcept (lightTryFrom parse dflt) scene.lights with
    | error e =>
      obtain ⟨l, hlmem, hle⟩ := collectExcept_error _ e _ hl
      obtain ⟨s0, he2, hstr, hpnone⟩ := lightTryFrom_error parse dflt l e hle
      subst he2
      refine ⟨⟨fun hfalse => absurd hfalse (by simp [Except.isOk, Except.toBool]),
        fun hok => ?_⟩, fun n hn => ?_, fun m hm => ?_, fun s hs => ?_⟩
      · exfalso
        obtain ⟨_, h2, _⟩ := hok
        have := materialColsOk_parse parse l.col s0 (h2 l hlmem) hstr
        rw [hpnone] at this
        exact absurd this (by simp [Option.isSome])
      · exfalso; injection hn with h2; exact SceneDeserializeErr.noConfusion h2
      · exfalso; injection hm with h2; exact SceneDeserializeErr.noConfusion h2
      · injection hs with h2
        injection h2 with h3
        exact ⟨⟨l, hlmem, h3 ▸ hstr⟩, h3 ▸ hpnone⟩
    | ok lights =>
      cases hr : collectExcept (intoRender (viewportsOf sqrt scene)) scene.renders with
      | error e =>
        obtain ⟨r, hrmem, hre⟩ := collectExcept_error _ e _ hr
        obtain ⟨he2, hnone⟩ := intoRender_error _ r e hre
        subst he2
        have hcnone := viewportsOf_lookup_none sqrt scene r.camera hnone
        refine ⟨⟨fun hfalse => absurd hfalse (by simp [Except.isOk, Except.toBool]),
          fun hok => ?_⟩, fun n hn => ?_, fun m hm => ?_, fun s hs => ?_⟩
        · exfalso
          obtain ⟨_, _, h3⟩ := hok
          have := h3 r hrmem
          rw [hcnone] at this
          exact absurd this (by simp [Option.isSome])
        · injection hn with h2
          injection h2 with h3
          exact ⟨⟨r, hrmem, h3⟩, h3 ▸ hcnone⟩
        · exfalso; injection hm with h2; exact SceneDeserializeErr.noConfusion h2
        · exfalso; injection hs with h2; exact SceneDeserializeErr.noConfusion h2
      | ok renders =>
        refine ⟨⟨fun _ => ?_, fun _ => rfl⟩, fun n hn => absurd hn (by simp),
          fun m hm => absurd hm (by simp), fun s hs => absurd hs (by simp)⟩
        refine ⟨fun g hgmem => ?_, fun l hlmem => ?_, fun r hrmem => ?_⟩
        · have hok : (collectExcept (geomItemConv sqrt log scene.materials)
              scene.geometry).isOk = true := by rw [hg]; rfl
          have := (collectExcept_isOk _ _).mp hok g hgmem
          exact (geomItemConv_isOk sqrt log scene.materials g).mp this
        · have hok : (collectExcept (lightTryFrom parse dflt)
              scene.lights).isOk = true := by rw [hl]; rfl
          have := (collectExcept_isOk _ _).mp hok l hlmem
          exact (lightTryFrom_isOk parse dflt l).mp this
        · have hok : (collectExcept (intoRender (viewportsOf sqrt scene))
              scene.renders).isOk = true := by rw [hr]; rfl
          have := (collectExcept_isOk _ _).mp hok r hrmem
          have h2 := (intoRender_isOk (viewportsOf sqrt scene) r).mp this
          rw [viewportsOf_lookup_isSome] at h2
          exact h2

end SceneConversionClaim

section SceneWitnesses

/-- Concrete color parser for witnesses: recognizes only `"red"`. -/
def parseC7 : String → Option ℕ := fun s => if s = "red" then some 1 else none

/-- Concrete scene-file Julia descriptor. -/
def jC7 : SJulia ℚ := ⟨⟨0, 0, 0, 1⟩, 2, ⟨"m", 1 / 1000, 10, 64⟩⟩

/-- Concrete scene-file camera. -/
def camC7 : SCamera ℚ := ⟨⟨0, 0, 1⟩, ⟨1, 0, 0⟩, ⟨0, 0, 0⟩, 2, 3, 2⟩

/-- Concrete well-formed scene: one Julia geometry referencing material
`"m"`, one light with parseable colors (empty shininess), one camera
`"cam"` referenced by one render target. -/
def sceneC7 : SScene ℚ :=
  { geometry := [SGeometry.julia jC7]
    materials := [("m", ⟨1, 1, 1, 0⟩)]
    lights := [⟨⟨0, 0, 1⟩, ⟨"red", "red", "red", ""⟩⟩]
    cameras := [("cam", camC7)]
    renders := [⟨"cam", 300⟩] }

/-- Witness for C7: the conversion of the concrete well-formed scene
succeeds, by the success direction of the claim theorem. -/
theorem C7_witness :
    (sceneTryFrom (fun x : ℚ => x) (fun x => x) parseC7 0 sceneC7).isOk = true :=
  (C7_scene_conversion_errors (fun x : ℚ => x) (fun x => x) parseC7 0 sceneC7).1.mpr
    (by
      refine ⟨fun g hg => ?_, fun l hl => ?_, fun r hr => ?_⟩
      · rcases List.mem_singleton.mp hg with rfl
        simp [sceneC7, geomMaterialName, jC7, List.lookup]
      · rcases List.mem_singleton.mp hl with rfl
        simp [sceneC7, materialColsOk, parseC7]
      · rcases List.mem_singleton.mp hr with rfl
        simp [sceneC7, List.lookup])

/-- C10: every `distance::Geometry` in a successfully converted scene has
`sample_size` equal to `epsilon` — the `From<&Julia<T>>` conversion
(serialize.rs:213) sets `sample_size: julia.est.epsilon`, and the scene
format offers no independent control over the normal sample size. -/
theorem C10_sample_size_eq_epsilon {α γ : Type} [LinearOrderedField α]
    (sqrt log : α → α) (parse : String → Option γ) (dflt : γ)
    (scene : SScene α) (result : RenderScene α γ)
    (h : sceneTryFrom sqrt log parse dflt scene = .ok result) :
    ∀ rg ∈ result.geometry, rg.geom.sample_size = rg.geom.epsilon := by
  intro rg hrg
  unfold sceneTryFrom intoRenderGeoms at h
  cases hg : collectExcept (geomItemConv sqrt log scene.materials) scene.geometry with
  | error e => rw [hg] at h; exact Except.noConfusion h
  | ok geoms =>
    rw [hg] at h
    cases hl : collectExcept (lightTryFrom parse dflt) scene.lights with
    | error e => rw [hl] at h; exact Except.noConfusion h
    | ok lights =>
      rw [hl] at h
      cases hr : collectExcept (intoRender (viewportsOf sqrt scene)) scene.renders with
      | error e => rw [hr] at h; exact Except.noConfusion h
      | ok renders =>
        rw [hr] at h
        have h2 : (⟨geoms, lights, renders⟩ : RenderScene α γ) = result := by
          injection h
        subst h2
        obtain ⟨g, _, hge⟩ := collectExcept_ok_mem _ scene.geometry geoms hg rg hrg
        cases g with
        | julia j =>
          simp only [geomItemConv] at hge
          cases hlk : scene.materials.lookup j.est.material with
          | none => rw [hlk] at hge; exact Except.noConfusion hge
          | some m =>
            rw [hlk] at hge
            have h3 : (⟨m, distGeomOfJulia sqrt log j⟩ : RenderGeometry α) = rg := by
              injection hge
            rw [← h3]
            rfl

/-- Concrete material for the C10 witness scene. -/
def matC10 : Material ℚ := ⟨1, 1, 1, 0⟩

/-- Concrete scene for the C10 witness: a single Julia geometry and its
material, no lights, cameras or render targets. -/
def sceneC10 : SScene ℚ :=
  { geometry := [SGeometry.julia jC7]
    materials := [("m", matC10)]
    lights := []
    cameras := []
    renders := [] }

/-- Witness for C10: the theorem applied to the concrete scene's conversion
result. -/
theorem C10_witness :
    (⟨matC10, distGeomOfJulia (fun x : ℚ => x) (fun x => x) jC7⟩ :
        RenderGeometry ℚ).geom.sample_size =
      (⟨matC10, distGeomOfJulia (fun x : ℚ => x) (fun x => x) jC7⟩ :
        RenderGeometry ℚ).geom.epsilon :=
  C10_sample_size_eq_epsilon (fun x => x) (fun x => x)
    (fun _ => (none : Option ℕ)) 0 sceneC10
    ⟨[⟨matC10, distGeomOfJulia (fun x : ℚ => x) (fun x => x) jC7⟩], [], []⟩
    rfl _ (List.mem_singleton.mpr rfl)

end SceneWitnesses

section Img

/-- `ImageData` (img.rs:3-8): an 8-bit RGBA image buffer; bytes are
modelled as naturals. -/
structure ImageData where
  width : ℕ
  height : ℕ
  data : List ℕ
deriving DecidableEq, Repr

/-- `ImageData::CHANNELS` (img.rs:12): 4 channels per pixel (RGBA). -/
def ImageData.CHANNELS : ℕ := 4

/-- `ImageData::new` (img.rs:14-20): `Vec::with_capacity` reserves capacity
but the vector's length is `0`, so the buffer starts empty. -/
def ImageData.new (width height : ℕ) : ImageData := ⟨width, height, []⟩

/-- `ImageData::indexes` (img.rs:48-51): `(0..data.len()).step_by(CHANNELS)`
yields `0, 4, 8, ...` strictly below `data.len()` — `⌈len/4⌉` values. -/
def ImageData.indexes (img : ImageData) : List ℕ :=
  (List.range ((img.data.length + ImageData.CHANNELS - 1) / ImageData.CHANNELS)).map
    (fun k => k * ImageData.CHANNELS)

/-- `ImageData::coords` (img.rs:53-55): `(0..width).cycle().zip(0..height)`.
For `width = 0` the cycled iterator is empty, so the zip is empty;
otherwise the zip pairs the cycled xs with `0..height`, so it yields
exactly `height` pairs and the pair at position `k` is `(k % width, k)`. -/
def ImageData.coords (img : ImageData) : List (ℕ × ℕ) :=
  if img.width = 0 then []
  else (List.range img.height).map (fun k => (k % img.width, k))

/-- `ImageData::indexes_coords` (img.rs:57-59): `indexes().zip(coords())`. -/
def ImageData.indexes_coords (img : ImageData) : List (ℕ × (ℕ × ℕ)) :=
  img.indexes.zip img.coords

/-- The pixel coordinates at which `ImageData::render_fn` (img.rs:61-69)
invokes the supplied pixel-color function `func`: one invocation per
element of `indexes_coords()`. -/
def ImageData.renderCalls (img : ImageData) : List (ℕ × ℕ) :=
  img.indexes_coords.map (fun p => p.2)

/-- C8 fails on the code (a code bug): for a 2×2 image, `render_fn` never
invokes the pixel function on every coordinate.  On a freshly constructed
`ImageData::new(2, 2)` the buffer is empty, so `indexes()` is empty and
`func` is never invoked at all; and even with a correctly sized 16-byte
buffer, `coords()` is `(0..width).cycle().zip(0..height)` — the diagonal
`[(0,0), (1,1)]` — so pixel `(1,0)` is never visited. -/
theorem C8_render_fn_misses_pixels :
    (ImageData.new 2 2).renderCalls = [] ∧
    ImageData.coords ⟨2, 2, List.replicate 16 0⟩ = [(0, 0), (1, 1)] ∧
    (1, 0) ∉ ImageData.renderCalls ⟨2, 2, List.replicate 16 0⟩ := by
  decide

end Img
